import Mathlib

/-!
Verification of the TCGE voxel chunk mesher.

Two mesher variants are embedded here:

* `Mesher` — the non-indexed variant from `src/client/blocks/mesher.rs`:
  per-block face culling through checked chunk lookups (`get_block` with
  `unwrap_or(air)`), quad-to-triangle expansion, in-place translation of the
  block's vertex range, f32 vertex attributes.
* `ChunkMesher` — the indexed variant from
  `tcge-client/src/playground/test_blocks/chunk_mesher.rs`: a chunk-with-edge
  block array, occlusion context handed to a static block bakery, f16 packed
  vertices, reusable per-worker scratch buffers, indexed draw counts.

Machine floats are modelled by `Rat`: every coordinate computed by the code on
the inputs examined here (corner coordinates 0/1, texture coordinates k/16,
translations by small integers) is exactly representable in f32, so rational
arithmetic agrees with the source arithmetic on these values.
-/

set_option maxHeartbeats 1600000
set_option maxRecDepth 8000

/-- A block state: the opaque, copyable, equality-comparable value identifying
a block type and variant. Embedded as the raw id held by the state. -/
abbrev BlockState := Nat

/-- Modelled from the spec: the block registry (not under `src/`) supplies a
designated default state for the block named "air"; the mesher only compares
block states against it for equality. -/
def air : BlockState := 0

/-- The compile-time chunk edge length (16 in the repository). -/
def CHUNK_SIZE : Nat := 16

/-- Modelled from the spec: chunk storage (not under `src/`) — a fixed-size
cubic grid of block states, identified by an integer chunk coordinate,
addressable by local coordinate. -/
structure Chunk where
  pos : Int × Int × Int
  blocks : Int → Int → Int → BlockState

/-- Modelled from the spec: the checked chunk lookup
`get_block(x,y,z) -> Option<BlockState>` — `some` of the stored state for an
in-range local coordinate, `none` outside the chunk bounds. -/
def Chunk.get_block (c : Chunk) (x y z : Int) : Option BlockState :=
  if 0 ≤ x ∧ x < (CHUNK_SIZE : Int) ∧ 0 ≤ y ∧ y < (CHUNK_SIZE : Int) ∧
     0 ≤ z ∧ z < (CHUNK_SIZE : Int) then
    some (c.blocks x y z)
  else
    none

/-- The traversal order of `mesh`: y-major, then z, then x, over all local
coordinates of a chunk. -/
def coords : List (Int × Int × Int) :=
  (List.range CHUNK_SIZE).flatMap fun (y : Nat) =>
    (List.range CHUNK_SIZE).flatMap fun (z : Nat) =>
      (List.range CHUNK_SIZE).map fun (x : Nat) =>
        ((x : Int), (y : Int), (z : Int))

namespace Mesher

/-- The packed vertex record of `mesher.rs`: position and texture coordinate,
five f32 fields. -/
structure ChunkMeshVertex where
  x : Rat
  y : Rat
  z : Rat
  u : Rat
  v : Rat
deriving DecidableEq

instance : Inhabited ChunkMeshVertex := ⟨⟨0, 0, 0, 0, 0⟩⟩

/-- The GPU-resident mesh handle: the uploaded vertex data (standing for the
contents of the vertex buffer object) and the vertex count passed to the draw
call. GPU object identifiers are excluded. -/
structure ChunkMesh where
  vertices : List ChunkMeshVertex
  count : Nat
deriving DecidableEq

/-- The graphical state of a chunk. -/
inductive ChunkMeshState
  | Empty
  | Meshed (m : ChunkMesh)
deriving DecidableEq

/-- Result of `upload`, together with the number of GPU buffer objects and
vertex-array objects created during the call (`gl::GenBuffers` /
`gl::GenVertexArrays`). -/
structure UploadOutcome where
  state : ChunkMeshState
  buffers_created : Nat
  arrays_created : Nat
deriving DecidableEq

/-- Texture-atlas cell of a block (`BlockUv`). -/
structure BlockUv where
  umin : Rat
  umax : Rat
  vmin : Rat
  vmax : Rat
deriving DecidableEq

/-- `BlockUv::new_from_pos`: cell (x, y) of a 16×16 texture atlas. -/
def BlockUv.new_from_pos (x y : Nat) : BlockUv :=
  let xq : Rat := (x : Rat) / 16
  let yq : Rat := (y : Rat) / 16
  let s : Rat := 1 / 16
  ⟨xq, xq + s, yq, yq + s⟩

/-- The uv computation of `mesh`:
`BlockUv::new_from_pos(block.id.get_raw_id() as u8 - 1, 0)`, with the `u8`
cast and wrapping subtraction made explicit. -/
def blockUvOf (b : BlockState) : BlockUv :=
  BlockUv.new_from_pos ((b % 256 + 255) % 256) 0

/-- The six face directions of a block, named as in the source comments. -/
inductive Dir
  | top
  | bottom
  | front
  | back
  | left
  | right
deriving DecidableEq

/-- The neighbor position queried for a face direction: ±1 on one axis. -/
def nbrPos (x y z : Int) : Dir → Int × Int × Int
  | .top => (x, y + 1, z)
  | .bottom => (x, y - 1, z)
  | .front => (x, y, z - 1)
  | .back => (x, y, z + 1)
  | .left => (x - 1, y, z)
  | .right => (x + 1, y, z)

/-- Checked lookup at a packed coordinate triple. -/
def getBlockAt (chunk : Chunk) (p : Int × Int × Int) : Option BlockState :=
  chunk.get_block p.1 p.2.1 p.2.2

/-- The four-vertex quad emitted for each face, transcribed from the inline
arrays in `mesh` (N = 0.0, S = 1.0). -/
def faceQuad (uv : BlockUv) : Dir → List ChunkMeshVertex
  | .top =>
    [⟨0, 1, 1, uv.umin, uv.vmin⟩, ⟨1, 1, 1, uv.umax, uv.vmin⟩,
     ⟨1, 1, 0, uv.umax, uv.vmax⟩, ⟨0, 1, 0, uv.umin, uv.vmax⟩]
  | .bottom =>
    [⟨0, 0, 0, uv.umin, uv.vmin⟩, ⟨1, 0, 0, uv.umax, uv.vmin⟩,
     ⟨1, 0, 1, uv.umax, uv.vmax⟩, ⟨0, 0, 1, uv.umin, uv.vmax⟩]
  | .front =>
    [⟨0, 1, 0, uv.umin, uv.vmin⟩, ⟨1, 1, 0, uv.umax, uv.vmin⟩,
     ⟨1, 0, 0, uv.umax, uv.vmax⟩, ⟨0, 0, 0, uv.umin, uv.vmax⟩]
  | .back =>
    [⟨0, 0, 1, uv.umin, uv.vmin⟩, ⟨1, 0, 1, uv.umax, uv.vmin⟩,
     ⟨1, 1, 1, uv.umax, uv.vmax⟩, ⟨0, 1, 1, uv.umin, uv.vmax⟩]
  | .left =>
    [⟨0, 1, 1, uv.umin, uv.vmin⟩, ⟨0, 1, 0, uv.umax, uv.vmin⟩,
     ⟨0, 0, 0, uv.umax, uv.vmax⟩, ⟨0, 0, 1, uv.umin, uv.vmax⟩]
  | .right =>
    [⟨1, 0, 1, uv.umin, uv.vmin⟩, ⟨1, 0, 0, uv.umax, uv.vmin⟩,
     ⟨1, 1, 0, uv.umax, uv.vmax⟩, ⟨1, 1, 1, uv.umin, uv.vmax⟩]

/-- `quad_to_tris`: push the six triangle vertices `src[0], src[1], src[3],
src[1], src[2], src[3]` of a quad onto the destination buffer. -/
def quad_to_tris (src dst : List ChunkMeshVertex) : List ChunkMeshVertex :=
  dst ++ [src.getD 0 default, src.getD 1 default, src.getD 3 default,
          src.getD 1 default, src.getD 2 default, src.getD 3 default]

/-- The six triangle vertices produced by `quad_to_tris` for one quad. -/
def tris (src : List ChunkMeshVertex) : List ChunkMeshVertex :=
  [src.getD 0 default, src.getD 1 default, src.getD 3 default,
   src.getD 1 default, src.getD 2 default, src.getD 3 default]

theorem quad_to_tris_eq (src dst : List ChunkMeshVertex) :
    quad_to_tris src dst = dst ++ tris src := rfl

/-- The per-vertex translation applied after a block's faces are emitted:
`vertex.x += (x + cpos.x*CHUNK_SIZE) as f32`, and likewise for y and z. -/
def translateV (cpos : Int × Int × Int) (x y z : Int)
    (v : ChunkMeshVertex) : ChunkMeshVertex :=
  { v with
    x := v.x + ((x + cpos.1 * (CHUNK_SIZE : Int) : Int) : Rat)
    y := v.y + ((y + cpos.2.1 * (CHUNK_SIZE : Int) : Int) : Rat)
    z := v.z + ((z + cpos.2.2 * (CHUNK_SIZE : Int) : Int) : Rat) }

/-- One iteration of the traversal loop of `mesh` for local coordinate
(x, y, z): skip air, emit a quad (expanded to triangles) per face whose
neighbor lookup resolves to air, then translate the vertices appended for
this block (the range from `cbp`) by the block's absolute position. -/
def blockStep (chunk : Chunk) (verts : List ChunkMeshVertex)
    (x y z : Int) : List ChunkMeshVertex :=
  let block := (chunk.get_block x y z).getD air
  if block = air then
    verts
  else
    let cbp := verts.length
    let uv := blockUvOf block
    let verts :=
      if (getBlockAt chunk (nbrPos x y z .top)).getD air = air then
        quad_to_tris (faceQuad uv .top) verts
      else verts
    let verts :=
      if (getBlockAt chunk (nbrPos x y z .bottom)).getD air = air then
        quad_to_tris (faceQuad uv .bottom) verts
      else verts
    let verts :=
      if (getBlockAt chunk (nbrPos x y z .front)).getD air = air then
        quad_to_tris (faceQuad uv .front) verts
      else verts
    let verts :=
      if (getBlockAt chunk (nbrPos x y z .back)).getD air = air then
        quad_to_tris (faceQuad uv .back) verts
      else verts
    let verts :=
      if (getBlockAt chunk (nbrPos x y z .left)).getD air = air then
        quad_to_tris (faceQuad uv .left) verts
      else verts
    let verts :=
      if (getBlockAt chunk (nbrPos x y z .right)).getD air = air then
        quad_to_tris (faceQuad uv .right) verts
      else verts
    List.take cbp verts ++ (List.drop cbp verts).map (translateV chunk.pos x y z)

/-- The untranslated vertices emitted for one block: the triangle expansions
of the quads of all faces whose neighbor lookup resolves to air. -/
def blockEmits (chunk : Chunk) (x y z : Int) : List ChunkMeshVertex :=
  let block := (chunk.get_block x y z).getD air
  if block = air then
    []
  else
    let uv := blockUvOf block
    (if (getBlockAt chunk (nbrPos x y z .top)).getD air = air then
      tris (faceQuad uv .top) else []) ++
    (if (getBlockAt chunk (nbrPos x y z .bottom)).getD air = air then
      tris (faceQuad uv .bottom) else []) ++
    (if (getBlockAt chunk (nbrPos x y z .front)).getD air = air then
      tris (faceQuad uv .front) else []) ++
    (if (getBlockAt chunk (nbrPos x y z .back)).getD air = air then
      tris (faceQuad uv .back) else []) ++
    (if (getBlockAt chunk (nbrPos x y z .left)).getD air = air then
      tris (faceQuad uv .left) else []) ++
    (if (getBlockAt chunk (nbrPos x y z .right)).getD air = air then
      tris (faceQuad uv .right) else [])

/-- The vertex list accumulated by the traversal loop of `mesh`. -/
def meshVertices (chunk : Chunk) : List ChunkMeshVertex :=
  coords.foldl (fun vs p => blockStep chunk vs p.1 p.2.1 p.2.2) []

/-- `upload`: return `Empty` for an empty vertex list without creating any
GPU object; otherwise create one vertex buffer and one vertex array and
report the raw vertex-list length as the draw count. -/
def upload (chunk : Chunk) (mesh_data : List ChunkMeshVertex) : UploadOutcome :=
  if mesh_data.length = 0 then
    { state := .Empty, buffers_created := 0, arrays_created := 0 }
  else
    { state := .Meshed { vertices := mesh_data, count := mesh_data.length }
      buffers_created := 1
      arrays_created := 1 }

/-- `mesh`: traverse the chunk, then upload the accumulated vertex list. -/
def mesh (chunk : Chunk) : UploadOutcome :=
  upload chunk (meshVertices chunk)

theorem blockStep_eq (chunk : Chunk) (verts : List ChunkMeshVertex)
    (x y z : Int) :
    blockStep chunk verts x y z =
      verts ++ (blockEmits chunk x y z).map (translateV chunk.pos x y z) := by
  simp only [blockStep, blockEmits]
  split_ifs <;>
    simp [quad_to_tris, tris, List.append_assoc, List.map_append,
      List.take_left, List.drop_left]

theorem blockStep_length (chunk : Chunk) (verts : List ChunkMeshVertex)
    (x y z : Int) :
    (blockStep chunk verts x y z).length =
      verts.length + (blockEmits chunk x y z).length := by
  rw [blockStep_eq]; simp

theorem blockEmits_length_mod6 (chunk : Chunk) (x y z : Int) :
    (blockEmits chunk x y z).length % 6 = 0 := by
  simp only [blockEmits]
  split_ifs <;> simp [tris]

end Mesher

namespace ChunkMesher

/-- A vertex of a baked block-face quad, as produced by the static block
bakery: unit-cube-local position and texture coordinate. -/
structure BakedBlockMeshVertex where
  x : Rat
  y : Rat
  z : Rat
  u : Rat
  v : Rat
deriving DecidableEq

/-- A baked quad: the four vertices `a`, `b`, `c`, `d` of one face-group. -/
structure BakedBlockMeshFace where
  a : BakedBlockMeshVertex
  b : BakedBlockMeshVertex
  c : BakedBlockMeshVertex
  d : BakedBlockMeshVertex
deriving DecidableEq

/-- The occlusion context handed to the bakery: six neighbor-occupancy flags
(true = neighbor solid, face culled) plus the has-data flag. -/
structure BakeryContext where
  occlude_pos_x : Bool
  occlude_pos_y : Bool
  occlude_pos_z : Bool
  occlude_neg_x : Bool
  occlude_neg_y : Bool
  occlude_neg_z : Bool
  has_data : Bool
deriving DecidableEq

/-- `BakeryContext::set_occlusion`, with arguments in the order of the call
site in `mesh_chunk`: +x, +y, +z, -x, -y, -z, has-data. -/
def BakeryContext.set_occlusion (px py pz nx ny nz hd : Bool) : BakeryContext :=
  ⟨px, py, pz, nx, ny, nz, hd⟩

/-- A bakery: yields the baked quads of one block for one occlusion context
(the closure-based emit callback of the source, collected into a list). -/
abbrev Bakery := BakeryContext → BlockState → List BakedBlockMeshFace

/-- The `ChunkWithEdge` input of `mesh_chunk`: an 18×18×18 block array
indexed `[y][z][x]`, the central 16³ being the chunk and the outer shell the
edge layers of its neighbors. -/
structure ChunkWithEdge where
  data : Int → Int → Int → BlockState

/-- The local `get_block` closure of `mesh_chunk`: index the chunk-with-edge
array at `[local_y+1][local_z+1][local_x+1]`, accepting local coordinates
from -1 to 16. -/
def get_block (cwe : ChunkWithEdge) (local_x local_y local_z : Int) : BlockState :=
  cwe.data (local_y + 1) (local_z + 1) (local_x + 1)

/-- Modelled from the spec: the neighborhood input — up to 26 optional
neighbor chunk references, keyed by their chunk offset from the center. -/
def Neighborhood : Type := Int × Int × Int → Option Chunk

/-- Modelled from the spec: construction of the chunk-with-edge array (not
under `src/`) from the central chunk and its neighborhood. A coordinate in
the central chunk reads the chunk itself; a coordinate in the edge shell
reads the owning neighbor chunk when provided, and resolves to air when that
neighbor chunk is missing. -/
def chunkWithEdge (center : Chunk) (nbhd : Neighborhood) : ChunkWithEdge :=
  ⟨fun iy iz ix =>
    let bx := ix - 1
    let bY := iy - 1
    let bz := iz - 1
    let ox : Int := if bx < 0 then -1 else if (CHUNK_SIZE : Int) ≤ bx then 1 else 0
    let oy : Int := if bY < 0 then -1 else if (CHUNK_SIZE : Int) ≤ bY then 1 else 0
    let oz : Int := if bz < 0 then -1 else if (CHUNK_SIZE : Int) ≤ bz then 1 else 0
    if ox = 0 ∧ oy = 0 ∧ oz = 0 then
      center.blocks bx bY bz
    else
      match nbhd (ox, oy, oz) with
      | some ch =>
        ch.blocks (bx - (CHUNK_SIZE : Int) * ox) (bY - (CHUNK_SIZE : Int) * oy)
          (bz - (CHUNK_SIZE : Int) * oz)
      | none => air⟩

/-- Modelled from the spec: `ChunkCoord::to_block_coord_tuple` (not under
`src/`) — the absolute block coordinate of the chunk origin, chunk position
times chunk size on each axis. -/
def to_block_coord_tuple (p : Int × Int × Int) : Int × Int × Int :=
  (p.1 * (CHUNK_SIZE : Int), p.2.1 * (CHUNK_SIZE : Int), p.2.2 * (CHUNK_SIZE : Int))

/-- The packed vertex record of `chunk_mesher.rs`: position, texture
coordinate and ambient occlusion, six f16 fields. -/
structure ChunkMeshVertex where
  x : Rat
  y : Rat
  z : Rat
  u : Rat
  v : Rat
  ao : Rat
deriving DecidableEq

instance : Inhabited ChunkMeshVertex := ⟨⟨0, 0, 0, 0, 0, 0⟩⟩

/-- `ChunkMeshVertex::new_from`: translate a baked vertex by the block's
absolute offset and attach the ambient-occlusion scalar. -/
def ChunkMeshVertex.new_from (other : BakedBlockMeshVertex) (ao : Rat)
    (offset : Rat × Rat × Rat) : ChunkMeshVertex :=
  ⟨other.x + offset.1, other.y + offset.2.1, other.z + offset.2.2,
   other.u, other.v, ao⟩

/-- The reusable per-worker scratch state of the mesher. -/
structure MesherThreadState where
  vertices : List ChunkMeshVertex
  quad_buf : List BakedBlockMeshVertex

/-- `MesherThreadState::reset`: clear both scratch buffers. -/
def MesherThreadState.reset (_m : MesherThreadState) : MesherThreadState :=
  { vertices := [], quad_buf := [] }

/-- The GPU-resident mesh handle of the indexed variant: uploaded vertex data
and the index count passed to `DrawElements`. -/
structure ChunkMesh where
  vertices : List ChunkMeshVertex
  count : Nat
deriving DecidableEq

/-- The graphical state of a chunk. -/
inductive ChunkMeshState
  | Empty
  | Meshed (m : ChunkMesh)
deriving DecidableEq

/-- Result of `upload`, with the number of GPU buffer objects and
vertex-array objects created during the call. -/
structure UploadOutcome where
  state : ChunkMeshState
  buffers_created : Nat
  arrays_created : Nat
deriving DecidableEq

/-- The occlusion context computed for one block, transcribing the
`context.set_occlusion(...)` call of `mesh_chunk`. -/
def occlusionAt (cwe : ChunkWithEdge) (x y z : Int) : BakeryContext :=
  BakeryContext.set_occlusion
    (get_block cwe (x + 1) y z != air)
    (get_block cwe x (y + 1) z != air)
    (get_block cwe x y (z + 1) != air)
    (get_block cwe (x - 1) y z != air)
    (get_block cwe x (y - 1) z != air)
    (get_block cwe x y (z - 1) != air)
    true

/-- The quads the bakery yields for the block at a local coordinate: the
`static_bakery.render_block(&context, &block, ...)` call of `mesh_chunk`. -/
def blockQuadsAt (bakery : Bakery) (cwe : ChunkWithEdge) (x y z : Int) :
    List BakedBlockMeshFace :=
  bakery (occlusionAt cwe x y z) (get_block cwe x y z)

/-- One iteration of the traversal loop of `mesh_chunk`: skip air, otherwise
push the four vertices `a`, `b`, `c`, `d` of every quad the bakery emits,
each translated by the block's absolute offset, with ambient occlusion 0. -/
def blockStep (bakery : Bakery) (cbase : Int × Int × Int) (cwe : ChunkWithEdge)
    (verts : List ChunkMeshVertex) (x y z : Int) : List ChunkMeshVertex :=
  let block := get_block cwe x y z
  if block = air then
    verts
  else
    let cbx := x + cbase.1
    let cby := y + cbase.2.1
    let cbz := z + cbase.2.2
    let offset : Rat × Rat × Rat := ((cbx : Rat), (cby : Rat), (cbz : Rat))
    verts ++ (blockQuadsAt bakery cwe x y z).flatMap fun face =>
      [ChunkMeshVertex.new_from face.a 0 offset,
       ChunkMeshVertex.new_from face.b 0 offset,
       ChunkMeshVertex.new_from face.c 0 offset,
       ChunkMeshVertex.new_from face.d 0 offset]

/-- `upload`: return `Empty` for an empty vertex list without creating any
GPU object; otherwise create one vertex buffer and one vertex array and
report `len / 4 * 6` (six indices per four-vertex quad) as the draw count. -/
def upload (chunk : Chunk) (mesh_data : List ChunkMeshVertex) : UploadOutcome :=
  if mesh_data.length = 0 then
    { state := .Empty, buffers_created := 0, arrays_created := 0 }
  else
    let vertex_count := mesh_data.length / 4 * 6
    { state := .Meshed { vertices := mesh_data, count := vertex_count }
      buffers_created := 1
      arrays_created := 1 }

/-- `mesh_chunk`: reset the scratch state, accumulate vertices over the
y-major z x traversal, then upload. -/
def mesh_chunk (mesher : MesherThreadState) (bakery : Bakery) (chunk : Chunk)
    (block_data : ChunkWithEdge) : UploadOutcome :=
  let mesher := mesher.reset
  let cbase := to_block_coord_tuple chunk.pos
  let vertices := coords.foldl
    (fun vs p => blockStep bakery cbase block_data vs p.1 p.2.1 p.2.2)
    mesher.vertices
  upload chunk vertices

/-- Modelled from the spec: the +x face-group quad a cube block's bakery
yields — its four vertices lie on the x = 1 side of the unit cube. -/
def bakedFacePosX : BakedBlockMeshFace :=
  ⟨⟨1, 1, 1, 0, 0⟩, ⟨1, 1, 0, 1, 0⟩, ⟨1, 0, 0, 1, 1⟩, ⟨1, 0, 1, 0, 1⟩⟩

/-- Modelled from the spec: the +y face-group quad of a cube block. -/
def bakedFacePosY : BakedBlockMeshFace :=
  ⟨⟨0, 1, 1, 0, 0⟩, ⟨1, 1, 1, 1, 0⟩, ⟨1, 1, 0, 1, 1⟩, ⟨0, 1, 0, 0, 1⟩⟩

/-- Modelled from the spec: the +z face-group quad of a cube block. -/
def bakedFacePosZ : BakedBlockMeshFace :=
  ⟨⟨0, 0, 1, 0, 0⟩, ⟨1, 0, 1, 1, 0⟩, ⟨1, 1, 1, 1, 1⟩, ⟨0, 1, 1, 0, 1⟩⟩

/-- Modelled from the spec: the -x face-group quad of a cube block. -/
def bakedFaceNegX : BakedBlockMeshFace :=
  ⟨⟨0, 1, 1, 0, 0⟩, ⟨0, 1, 0, 1, 0⟩, ⟨0, 0, 0, 1, 1⟩, ⟨0, 0, 1, 0, 1⟩⟩

/-- Modelled from the spec: the -y face-group quad of a cube block. -/
def bakedFaceNegY : BakedBlockMeshFace :=
  ⟨⟨0, 0, 0, 0, 0⟩, ⟨1, 0, 0, 1, 0⟩, ⟨1, 0, 1, 1, 1⟩, ⟨0, 0, 1, 0, 1⟩⟩

/-- Modelled from the spec: the -z face-group quad of a cube block. -/
def bakedFaceNegZ : BakedBlockMeshFace :=
  ⟨⟨0, 1, 0, 0, 0⟩, ⟨1, 1, 0, 1, 0⟩, ⟨1, 0, 0, 1, 1⟩, ⟨0, 0, 0, 0, 1⟩⟩

/-- Modelled from the spec: `StaticBlockBakery::render_block` (not under
`src/`) for a solid cube block — one quad per face-group whose occlusion
flag is not set; occluded face-groups are culled. -/
def render_block_spec (ctx : BakeryContext) (_block : BlockState) :
    List BakedBlockMeshFace :=
  (if ctx.occlude_pos_x then [] else [bakedFacePosX]) ++
  (if ctx.occlude_pos_y then [] else [bakedFacePosY]) ++
  (if ctx.occlude_pos_z then [] else [bakedFacePosZ]) ++
  (if ctx.occlude_neg_x then [] else [bakedFaceNegX]) ++
  (if ctx.occlude_neg_y then [] else [bakedFaceNegY]) ++
  (if ctx.occlude_neg_z then [] else [bakedFaceNegZ])

end ChunkMesher

namespace Layout

/-- Byte size of an f32 field. -/
def f32_size : Nat := 4

/-- Byte size of an f16 (half-precision) field. -/
def f16_size : Nat := 2

/-- Byte offsets of the fields of a `repr(C, packed)` record with the given
field sizes: each field starts where the previous one ends, no padding. -/
def offsetsOf (fields : List Nat) : List Nat :=
  (fields.foldl (fun (acc : List Nat × Nat) s => (acc.1 ++ [acc.2], acc.2 + s))
    ([], 0)).1

/-- Field sizes of the `mesher.rs` `ChunkMeshVertex`: x, y, z, u, v, all
f32, `repr(C, packed)`. -/
def mesher_vertex_fields : List Nat :=
  [f32_size, f32_size, f32_size, f32_size, f32_size]

/-- Byte size of the `mesher.rs` vertex record. -/
def mesher_vertex_size : Nat := mesher_vertex_fields.sum

/-- The stride passed to both `gl::VertexAttribPointer` calls of the
`mesher.rs` `upload`: `5 * size_of::<f32>()`. -/
def mesher_stride_used : Nat := 5 * f32_size

/-- The attribute byte offsets passed by the `mesher.rs` `upload`: position
at `0 * size_of::<f32>()`, texcoord at `3 * size_of::<f32>()`. -/
def mesher_attrib_offsets_used : List Nat := [0 * f32_size, 3 * f32_size]

/-- Field sizes of the `chunk_mesher.rs` `ChunkMeshVertex`: x, y, z, u, v,
ao, all f16, `repr(C, packed)`. -/
def chunk_mesher_vertex_fields : List Nat :=
  [f16_size, f16_size, f16_size, f16_size, f16_size, f16_size]

/-- Byte size of the `chunk_mesher.rs` vertex record. -/
def chunk_mesher_vertex_size : Nat := chunk_mesher_vertex_fields.sum

/-- The stride passed to all three `VertexAttribPointer` calls of the
`chunk_mesher.rs` `upload`: `6 * size_of::<f16>()`. -/
def chunk_mesher_stride_used : Nat := 6 * f16_size

/-- The attribute byte offsets passed by the `chunk_mesher.rs` `upload`:
position at 0, texcoord at `3 * size_of::<f16>()`, ambient occlusion at
`5 * size_of::<f16>()`. -/
def chunk_mesher_attrib_offsets_used : List Nat :=
  [0 * f16_size, 3 * f16_size, 5 * f16_size]

end Layout

section Helpers

theorem mem_of_mem_ite_nil {α : Type} {c : Prop} [Decidable c]
    {l : List α} {a : α} (h : a ∈ (if c then l else [])) : a ∈ l := by
  split_ifs at h with hc
  · exact h
  · cases h

theorem mem_of_mem_nil_ite {α : Type} {c : Prop} [Decidable c]
    {l : List α} {a : α} (h : a ∈ (if c then [] else l)) : a ∈ l := by
  split_ifs at h with hc
  · cases h
  · exact h

theorem Mesher.foldl_blockStep_air (chunk : Chunk)
    (l : List (Int × Int × Int)) (acc : List Mesher.ChunkMeshVertex)
    (h : ∀ p ∈ l, (chunk.get_block p.1 p.2.1 p.2.2).getD air = air) :
    l.foldl (fun vs p => Mesher.blockStep chunk vs p.1 p.2.1 p.2.2) acc = acc := by
  induction l generalizing acc with
  | nil => rfl
  | cons p t ih =>
    have hp : (chunk.get_block p.1 p.2.1 p.2.2).getD air = air :=
      h p (List.mem_cons_self p t)
    have hstep : Mesher.blockStep chunk acc p.1 p.2.1 p.2.2 = acc := by
      simp [Mesher.blockStep, hp]
    simp only [List.foldl_cons, hstep]
    exact ih acc (fun q hq => h q (List.mem_cons_of_mem p hq))

theorem ChunkMesher.foldl_blockStep_air_indexed (bakery : ChunkMesher.Bakery)
    (cbase : Int × Int × Int) (cwe : ChunkMesher.ChunkWithEdge)
    (l : List (Int × Int × Int)) (acc : List ChunkMesher.ChunkMeshVertex)
    (h : ∀ p ∈ l, ChunkMesher.get_block cwe p.1 p.2.1 p.2.2 = air) :
    l.foldl (fun vs p => ChunkMesher.blockStep bakery cbase cwe vs p.1 p.2.1 p.2.2)
      acc = acc := by
  induction l generalizing acc with
  | nil => rfl
  | cons p t ih =>
    have hp : ChunkMesher.get_block cwe p.1 p.2.1 p.2.2 = air :=
      h p (List.mem_cons_self p t)
    have hstep : ChunkMesher.blockStep bakery cbase cwe acc p.1 p.2.1 p.2.2 = acc := by
      simp [ChunkMesher.blockStep, hp]
    simp only [List.foldl_cons, hstep]
    exact ih acc (fun q hq => h q (List.mem_cons_of_mem p hq))

theorem Mesher.foldl_length_mod6 (chunk : Chunk)
    (l : List (Int × Int × Int)) (acc : List Mesher.ChunkMeshVertex)
    (h : acc.length % 6 = 0) :
    (l.foldl (fun vs p => Mesher.blockStep chunk vs p.1 p.2.1 p.2.2) acc).length
      % 6 = 0 := by
  induction l generalizing acc with
  | nil => exact h
  | cons p t ih =>
    simp only [List.foldl_cons]
    apply ih
    have he := Mesher.blockEmits_length_mod6 chunk p.1 p.2.1 p.2.2
    rw [Mesher.blockStep_length]
    omega

theorem Mesher.meshVertices_length_mod6 (chunk : Chunk) :
    (Mesher.meshVertices chunk).length % 6 = 0 :=
  Mesher.foldl_length_mod6 chunk coords [] rfl

end Helpers

section ExtractHelpers

theorem extract_face1 {α : Type} (verts t B C D E F : List α) (f : α → α) :
    ∃ mid post, verts ++ (t ++ B ++ C ++ D ++ E ++ F).map f =
      verts ++ mid ++ t.map f ++ post :=
  ⟨[], (B ++ C ++ D ++ E ++ F).map f,
    by simp [List.map_append, List.append_assoc]⟩

theorem extract_face2 {α : Type} (verts A t C D E F : List α) (f : α → α) :
    ∃ mid post, verts ++ (A ++ t ++ C ++ D ++ E ++ F).map f =
      verts ++ mid ++ t.map f ++ post :=
  ⟨A.map f, (C ++ D ++ E ++ F).map f,
    by simp [List.map_append, List.append_assoc]⟩

theorem extract_face3 {α : Type} (verts A B t D E F : List α) (f : α → α) :
    ∃ mid post, verts ++ (A ++ B ++ t ++ D ++ E ++ F).map f =
      verts ++ mid ++ t.map f ++ post :=
  ⟨(A ++ B).map f, (D ++ E ++ F).map f,
    by simp [List.map_append, List.append_assoc]⟩

theorem extract_face4 {α : Type} (verts A B C t E F : List α) (f : α → α) :
    ∃ mid post, verts ++ (A ++ B ++ C ++ t ++ E ++ F).map f =
      verts ++ mid ++ t.map f ++ post :=
  ⟨(A ++ B ++ C).map f, (E ++ F).map f,
    by simp [List.map_append, List.append_assoc]⟩

theorem extract_face5 {α : Type} (verts A B C D t F : List α) (f : α → α) :
    ∃ mid post, verts ++ (A ++ B ++ C ++ D ++ t ++ F).map f =
      verts ++ mid ++ t.map f ++ post :=
  ⟨(A ++ B ++ C ++ D).map f, F.map f,
    by simp [List.map_append, List.append_assoc]⟩

theorem extract_face6 {α : Type} (verts A B C D E t : List α) (f : α → α) :
    ∃ mid post, verts ++ (A ++ B ++ C ++ D ++ E ++ t).map f =
      verts ++ mid ++ t.map f ++ post :=
  ⟨(A ++ B ++ C ++ D ++ E).map f, [],
    by simp [List.map_append, List.append_assoc]⟩

end ExtractHelpers

/-- C4: for every emitted quad with vertices [a,b,c,d] in order,
`quad_to_tris` appends exactly the six vertices a,b,d,b,c,d to the vertex
buffer — triangle 1 = {a,b,d}, triangle 2 = {b,c,d}, preserving the quad's
winding order. -/
theorem tcge_C4 (a b c d : Mesher.ChunkMeshVertex)
    (dst : List Mesher.ChunkMeshVertex) :
    Mesher.quad_to_tris [a, b, c, d] dst = dst ++ [a, b, d, b, c, d] := rfl

/-- C10: in the non-indexed (f32) mesher, the per-block translation step
touches only the vertices appended for the currently processed block — the
vertices present in the buffer before the block was processed (the prefix of
length `verts.length`, the `cbp` mark of the source) are left unchanged. -/
theorem tcge_C10 (chunk : Chunk) (verts : List Mesher.ChunkMeshVertex)
    (x y z : Int) :
    (Mesher.blockStep chunk verts x y z).take verts.length = verts := by
  rw [Mesher.blockStep_eq]
  simp

/-- C8: meshing is a deterministic pure function of the chunk-plus-
neighborhood contents — `mesh_chunk` yields identical results on identical
inputs regardless of the prior contents of the reusable per-worker scratch
buffers, because the scratch state is reset before traversal. -/
theorem tcge_C8 (s1 s2 : ChunkMesher.MesherThreadState)
    (bakery : ChunkMesher.Bakery) (chunk : Chunk)
    (block_data : ChunkMesher.ChunkWithEdge) :
    ChunkMesher.mesh_chunk s1 bakery chunk block_data =
      ChunkMesher.mesh_chunk s2 bakery chunk block_data := rfl

/-- C9 counterexample: the claim says every mesher variant packs 5 or 6
half-precision (16-bit) fields with a stride of 10 or 12 bytes, but the
`mesher.rs` variant packs its 5 fields as single-precision f32 (4 bytes
each) and binds the GPU attributes with a 20-byte stride. -/
theorem tcge_C9_counterexample :
    Layout.mesher_vertex_fields ≠ List.replicate 5 Layout.f16_size ∧
    Layout.mesher_vertex_size = 20 ∧
    ¬(Layout.mesher_stride_used = 10 ∨ Layout.mesher_stride_used = 12) := by
  decide

/-- C9 (amended): the packed vertex record is either 5 single-precision
(32-bit) fields {x,y,z,u,v} with no padding and a 20-byte stride
(`mesher.rs`), or 6 half-precision (16-bit) fields {x,y,z,u,v,ao} with no
padding and a 12-byte stride (`chunk_mesher.rs`); in both variants the
vertex-attribute binding uses exactly the record's stride, and the attribute
offsets are exactly the packed byte offsets of the x, u and ao fields. -/
theorem tcge_C9 :
    Layout.mesher_stride_used = Layout.mesher_vertex_size ∧
    Layout.mesher_vertex_size = 20 ∧
    Layout.mesher_attrib_offsets_used =
      [(Layout.offsetsOf Layout.mesher_vertex_fields).getD 0 0,
       (Layout.offsetsOf Layout.mesher_vertex_fields).getD 3 0] ∧
    Layout.chunk_mesher_vertex_fields = List.replicate 6 Layout.f16_size ∧
    Layout.chunk_mesher_stride_used = Layout.chunk_mesher_vertex_size ∧
    Layout.chunk_mesher_vertex_size = 12 ∧
    Layout.chunk_mesher_attrib_offsets_used =
      [(Layout.offsetsOf Layout.chunk_mesher_vertex_fields).getD 0 0,
       (Layout.offsetsOf Layout.chunk_mesher_vertex_fields).getD 3 0,
       (Layout.offsetsOf Layout.chunk_mesher_vertex_fields).getD 5 0] := by
  decide

/-- C6: for every input, either the mesh is reported Empty with no GPU
resources allocated, or the vertex count uploaded is a multiple of 6 — in
the non-indexed variant because every quad contributes six triangle
vertices, and in the indexed variant because the reported count is
`len / 4 * 6`. -/
theorem tcge_C6 :
    (∀ chunk : Chunk,
      ((Mesher.mesh chunk).state = Mesher.ChunkMeshState.Empty ∧
        (Mesher.mesh chunk).buffers_created = 0 ∧
        (Mesher.mesh chunk).arrays_created = 0) ∨
      (∃ m, (Mesher.mesh chunk).state = Mesher.ChunkMeshState.Meshed m ∧
        m.count % 6 = 0)) ∧
    (∀ (mesher : ChunkMesher.MesherThreadState) (bakery : ChunkMesher.Bakery)
        (chunk : Chunk) (block_data : ChunkMesher.ChunkWithEdge),
      ((ChunkMesher.mesh_chunk mesher bakery chunk block_data).state =
          ChunkMesher.ChunkMeshState.Empty ∧
        (ChunkMesher.mesh_chunk mesher bakery chunk block_data).buffers_created = 0 ∧
        (ChunkMesher.mesh_chunk mesher bakery chunk block_data).arrays_created = 0) ∨
      (∃ m, (ChunkMesher.mesh_chunk mesher bakery chunk block_data).state =
          ChunkMesher.ChunkMeshState.Meshed m ∧ m.count % 6 = 0)) := by
  constructor
  · intro chunk
    by_cases h : (Mesher.meshVertices chunk).length = 0
    · left
      have hm : Mesher.mesh chunk =
          ⟨Mesher.ChunkMeshState.Empty, 0, 0⟩ := by
        simp only [Mesher.mesh, Mesher.upload, if_pos h]
      rw [hm]
      exact ⟨rfl, rfl, rfl⟩
    · right
      refine ⟨⟨Mesher.meshVertices chunk, (Mesher.meshVertices chunk).length⟩, ?_, ?_⟩
      · simp only [Mesher.mesh, Mesher.upload, if_neg h]
      · show (Mesher.meshVertices chunk).length % 6 = 0
        exact Mesher.meshVertices_length_mod6 chunk
  · intro mesher bakery chunk block_data
    simp only [ChunkMesher.mesh_chunk, ChunkMesher.upload]
    split_ifs with h
    · left
      exact ⟨rfl, rfl, rfl⟩
    · right
      exact ⟨_, rfl, Nat.mul_mod_left _ 6⟩

/-- C7: for every non-empty vertex list, the vertex count reported to the
draw call is `len / 4 * 6` in the indexed variant (`chunk_mesher.rs`) and
the raw vertex-list length in the variant that emits triangles directly
(`mesher.rs`). -/
theorem tcge_C7 (chunk1 chunk2 : Chunk)
    (vd1 : List Mesher.ChunkMeshVertex)
    (vd2 : List ChunkMesher.ChunkMeshVertex)
    (h1 : vd1 ≠ []) (h2 : vd2 ≠ []) :
    (∃ m, (Mesher.upload chunk1 vd1).state = Mesher.ChunkMeshState.Meshed m ∧
      m.count = vd1.length) ∧
    (∃ m, (ChunkMesher.upload chunk2 vd2).state =
      ChunkMesher.ChunkMeshState.Meshed m ∧ m.count = vd2.length / 4 * 6) := by
  have h1l : vd1.length ≠ 0 := by simpa using h1
  have h2l : vd2.length ≠ 0 := by simpa using h2
  constructor
  · refine ⟨⟨vd1, vd1.length⟩, ?_, rfl⟩
    simp only [Mesher.upload, if_neg h1l]
  · refine ⟨⟨vd2, vd2.length / 4 * 6⟩, ?_, rfl⟩
    simp only [ChunkMesher.upload, if_neg h2l]

/-- C1: whenever the traversal produces an empty vertex list — in particular
for any chunk entirely filled with air — `mesh` returns the Empty state and
creates no GPU buffer or vertex-array object; likewise for the indexed
variant. -/
theorem tcge_C1 :
    (∀ chunk : Chunk, Mesher.meshVertices chunk = [] →
      Mesher.mesh chunk = ⟨Mesher.ChunkMeshState.Empty, 0, 0⟩) ∧
    (∀ chunk : Chunk,
      (∀ x y z : Int, (chunk.get_block x y z).getD air = air) →
      Mesher.meshVertices chunk = [] ∧
        Mesher.mesh chunk = ⟨Mesher.ChunkMeshState.Empty, 0, 0⟩) ∧
    (∀ (chunk : Chunk) (vd : List ChunkMesher.ChunkMeshVertex), vd = [] →
      ChunkMesher.upload chunk vd = ⟨ChunkMesher.ChunkMeshState.Empty, 0, 0⟩) ∧
    (∀ (mesher : ChunkMesher.MesherThreadState) (bakery : ChunkMesher.Bakery)
        (chunk : Chunk) (block_data : ChunkMesher.ChunkWithEdge),
      (∀ x y z : Int, ChunkMesher.get_block block_data x y z = air) →
      ChunkMesher.mesh_chunk mesher bakery chunk block_data =
        ⟨ChunkMesher.ChunkMeshState.Empty, 0, 0⟩) := by
  have hpart1 : ∀ chunk : Chunk, Mesher.meshVertices chunk = [] →
      Mesher.mesh chunk = ⟨Mesher.ChunkMeshState.Empty, 0, 0⟩ := by
    intro chunk h
    simp only [Mesher.mesh, h]
    rfl
  refine ⟨hpart1, ?_, ?_, ?_⟩
  · intro chunk h
    have hempty : Mesher.meshVertices chunk = [] :=
      Mesher.foldl_blockStep_air chunk coords []
        (fun p _ => h p.1 p.2.1 p.2.2)
    exact ⟨hempty, hpart1 chunk hempty⟩
  · intro chunk vd h
    subst h
    rfl
  · intro mesher bakery chunk block_data h
    simp only [ChunkMesher.mesh_chunk]
    rw [ChunkMesher.foldl_blockStep_air_indexed bakery _ block_data coords _
      (fun p _ => h p.1 p.2.1 p.2.2)]
    rfl

/-- C1 witness: the all-air chunk and all-air chunk-with-edge yield the
empty vertex list, the Empty state, and zero GPU allocations. -/
theorem tcge_C1_witness :
    Mesher.meshVertices ⟨(0, 0, 0), fun _ _ _ => air⟩ = [] ∧
    Mesher.mesh ⟨(0, 0, 0), fun _ _ _ => air⟩ =
      ⟨Mesher.ChunkMeshState.Empty, 0, 0⟩ ∧
    ChunkMesher.mesh_chunk ⟨[], []⟩ ChunkMesher.render_block_spec
      ⟨(0, 0, 0), fun _ _ _ => air⟩ ⟨fun _ _ _ => air⟩ =
      ⟨ChunkMesher.ChunkMeshState.Empty, 0, 0⟩ := by
  have hairc : ∀ x y z : Int,
      ((⟨(0, 0, 0), fun _ _ _ => air⟩ : Chunk).get_block x y z).getD air = air := by
    intro x y z
    unfold Chunk.get_block
    split_ifs <;> rfl
  have h2 := tcge_C1.2.1 ⟨(0, 0, 0), fun _ _ _ => air⟩ hairc
  have h4 := tcge_C1.2.2.2 ⟨[], []⟩ ChunkMesher.render_block_spec
    ⟨(0, 0, 0), fun _ _ _ => air⟩ ⟨fun _ _ _ => air⟩ (fun _ _ _ => rfl)
  exact ⟨h2.1, h2.2, h4⟩

/-- C3: for a non-air block, a face direction whose neighbor lookup yields no
chunk data (`get_block` returns `None`, e.g. past the chunk bounds) is
resolved to air, and the face's translated triangle vertices are emitted into
the buffer; the resolution is local and total, never an error result. -/
theorem tcge_C3 (chunk : Chunk) (verts : List Mesher.ChunkMeshVertex)
    (x y z : Int) (d : Mesher.Dir)
    (hb : (chunk.get_block x y z).getD air ≠ air)
    (hn : Mesher.getBlockAt chunk (Mesher.nbrPos x y z d) = none) :
    (Mesher.getBlockAt chunk (Mesher.nbrPos x y z d)).getD air = air ∧
    ∃ mid post, Mesher.blockStep chunk verts x y z =
      verts ++ mid ++
        (Mesher.tris (Mesher.faceQuad
          (Mesher.blockUvOf ((chunk.get_block x y z).getD air)) d)).map
          (Mesher.translateV chunk.pos x y z) ++ post := by
  have hair : (Mesher.getBlockAt chunk (Mesher.nbrPos x y z d)).getD air = air := by
    rw [hn]; rfl
  refine ⟨hair, ?_⟩
  rw [Mesher.blockStep_eq]
  simp only [Mesher.blockEmits]
  rw [if_neg hb]
  cases d with
  | top => rw [if_pos hair]; apply extract_face1
  | bottom => rw [if_pos hair]; apply extract_face2
  | front => rw [if_pos hair]; apply extract_face3
  | back => rw [if_pos hair]; apply extract_face4
  | left => rw [if_pos hair]; apply extract_face5
  | right => rw [if_pos hair]; apply extract_face6

/-- The single-block chunk used as concrete input for C3: one non-air block
at local (0,0,0) of the chunk at position (0,0,0). -/
def chunkC3 : Chunk :=
  ⟨(0, 0, 0), fun x y z => if x = 0 ∧ y = 0 ∧ z = 0 then 1 else 0⟩

/-- C3 witness: in the single-block chunk, the bottom neighbor of the block
at local (0,0,0) is below the chunk bounds, its lookup yields `none`, is
resolved to air, and the bottom face is emitted. -/
theorem tcge_C3_witness :
    (Mesher.getBlockAt chunkC3 (Mesher.nbrPos 0 0 0 Mesher.Dir.bottom)).getD air
        = air ∧
    ∃ mid post, Mesher.blockStep chunkC3 [] 0 0 0 =
      [] ++ mid ++
        (Mesher.tris (Mesher.faceQuad
          (Mesher.blockUvOf ((chunkC3.get_block 0 0 0).getD air))
          Mesher.Dir.bottom)).map
          (Mesher.translateV chunkC3.pos 0 0 0) ++ post :=
  tcge_C3 chunkC3 [] 0 0 0 Mesher.Dir.bottom (by decide) (by decide)

theorem mem_tris_faceQuad_coords (uv : Mesher.BlockUv) (d : Mesher.Dir)
    (v : Mesher.ChunkMeshVertex) (hv : v ∈ Mesher.tris (Mesher.faceQuad uv d)) :
    (v.x = 0 ∨ v.x = 1) ∧ (v.y = 0 ∨ v.y = 1) ∧ (v.z = 0 ∨ v.z = 1) := by
  cases d <;>
    simp only [Mesher.tris, Mesher.faceQuad, List.getD, List.get?, Option.getD,
      List.mem_cons, List.not_mem_nil, or_false] at hv <;>
    rcases hv with rfl | rfl | rfl | rfl | rfl | rfl <;> simp

theorem Mesher.mem_blockEmits (chunk : Chunk) (x y z : Int)
    (v : Mesher.ChunkMeshVertex) (hv : v ∈ Mesher.blockEmits chunk x y z) :
    ∃ d, v ∈ Mesher.tris (Mesher.faceQuad
      (Mesher.blockUvOf ((chunk.get_block x y z).getD air)) d) := by
  simp only [Mesher.blockEmits] at hv
  by_cases hb : (chunk.get_block x y z).getD air = air
  · rw [if_pos hb] at hv
    cases hv
  · rw [if_neg hb] at hv
    simp only [List.mem_append] at hv
    rcases hv with ((((hv | hv) | hv) | hv) | hv) | hv
    exacts [⟨.top, mem_of_mem_ite_nil hv⟩, ⟨.bottom, mem_of_mem_ite_nil hv⟩,
      ⟨.front, mem_of_mem_ite_nil hv⟩, ⟨.back, mem_of_mem_ite_nil hv⟩,
      ⟨.left, mem_of_mem_ite_nil hv⟩, ⟨.right, mem_of_mem_ite_nil hv⟩]

/-- C5 (amended): every emitted vertex is the corresponding block-local
unit-cube vertex translated by exactly the block's absolute world position
(local coordinate plus chunk position times chunk size) on each axis, so for
a block at local x = 0 in a chunk at position (1,0,0) the emitted
x-components lie in the closed interval [16,17]. -/
theorem tcge_C5 (chunk : Chunk) (verts : List Mesher.ChunkMeshVertex)
    (x y z : Int) :
    Mesher.blockStep chunk verts x y z =
      verts ++ (Mesher.blockEmits chunk x y z).map
        (Mesher.translateV chunk.pos x y z) ∧
    (∀ v ∈ (Mesher.blockEmits chunk x y z).map
        (Mesher.translateV chunk.pos x y z),
      ((x + chunk.pos.1 * (CHUNK_SIZE : Int) : Int) : Rat) ≤ v.x ∧
        v.x ≤ ((x + chunk.pos.1 * (CHUNK_SIZE : Int) : Int) : Rat) + 1) ∧
    (chunk.pos = (1, 0, 0) → x = 0 →
      ∀ v ∈ (Mesher.blockEmits chunk x y z).map
          (Mesher.translateV chunk.pos x y z),
        (16 : Rat) ≤ v.x ∧ v.x ≤ 17) := by
  have hbound : ∀ v ∈ (Mesher.blockEmits chunk x y z).map
      (Mesher.translateV chunk.pos x y z),
      ((x + chunk.pos.1 * (CHUNK_SIZE : Int) : Int) : Rat) ≤ v.x ∧
        v.x ≤ ((x + chunk.pos.1 * (CHUNK_SIZE : Int) : Int) : Rat) + 1 := by
    intro v hv
    obtain ⟨w, hw, rfl⟩ := List.mem_map.mp hv
    obtain ⟨d, hd⟩ := Mesher.mem_blockEmits chunk x y z w hw
    have hx01 := (mem_tris_faceQuad_coords _ d w hd).1
    simp only [Mesher.translateV]
    rcases hx01 with h | h <;> rw [h] <;> constructor <;> linarith
  refine ⟨Mesher.blockStep_eq chunk verts x y z, hbound, ?_⟩
  intro hpos hx v hv
  have hb := hbound v hv
  subst hx
  rw [hpos] at hb
  norm_num [CHUNK_SIZE] at hb
  exact hb

/-- The single-block chunk used as concrete input for C5: one non-air block
at local (0,0,0) of the chunk at position (1,0,0). -/
def chunkC5 : Chunk :=
  ⟨(1, 0, 0), fun x y z => if x = 0 ∧ y = 0 ∧ z = 0 then 1 else 0⟩

theorem chunkC5_top_vertex_mem :
    (Mesher.faceQuad (Mesher.blockUvOf ((chunkC5.get_block 0 0 0).getD air))
      Mesher.Dir.top).getD 1 default ∈ Mesher.blockEmits chunkC5 0 0 0 := by
  have h1 : ¬ ((chunkC5.get_block 0 0 0).getD air = air) := by decide
  have h2 : (Mesher.getBlockAt chunkC5
      (Mesher.nbrPos 0 0 0 Mesher.Dir.top)).getD air = air := by decide
  simp only [Mesher.blockEmits, if_neg h1, if_pos h2]
  refine List.mem_append_left _ (List.mem_append_left _
    (List.mem_append_left _ (List.mem_append_left _
      (List.mem_append_left _ ?_))))
  simp [Mesher.tris]

theorem Mesher.subset_foldl_blockStep (chunk : Chunk)
    (l : List (Int × Int × Int)) (acc : List Mesher.ChunkMeshVertex) :
    acc ⊆ l.foldl (fun vs p => Mesher.blockStep chunk vs p.1 p.2.1 p.2.2) acc := by
  induction l generalizing acc with
  | nil => exact fun v hv => hv
  | cons p t ih =>
    intro v hv
    simp only [List.foldl_cons]
    refine ih _ ?_
    rw [Mesher.blockStep_eq]
    exact List.mem_append_left _ hv

theorem Mesher.mem_meshVertices_of_block (chunk : Chunk) (q : Int × Int × Int)
    (hq : q ∈ coords) (v : Mesher.ChunkMeshVertex)
    (hv : v ∈ (Mesher.blockEmits chunk q.1 q.2.1 q.2.2).map
      (Mesher.translateV chunk.pos q.1 q.2.1 q.2.2)) :
    v ∈ Mesher.meshVertices chunk := by
  unfold Mesher.meshVertices
  suffices h : ∀ (l : List (Int × Int × Int))
      (acc : List Mesher.ChunkMeshVertex), q ∈ l →
      v ∈ l.foldl (fun vs p => Mesher.blockStep chunk vs p.1 p.2.1 p.2.2) acc by
    exact h coords [] hq
  intro l
  induction l with
  | nil => intro acc h; cases h
  | cons p t ih =>
    intro acc hmem
    simp only [List.foldl_cons]
    rcases List.mem_cons.mp hmem with heq | htail
    · subst heq
      apply Mesher.subset_foldl_blockStep
      rw [Mesher.blockStep_eq]
      exact List.mem_append_right _ hv
    · exact ih _ htail

theorem mem_flatMap_of_mem {α β : Type} (f : α → List β) {l : List α}
    {a : α} {b : β} (ha : a ∈ l) (hb : b ∈ f a) : b ∈ l.flatMap f :=
  List.mem_flatMap.mpr ⟨a, ha, hb⟩

theorem origin_mem_coords : ((0 : Int), (0 : Int), (0 : Int)) ∈ coords := by
  have h0 : (0 : Nat) ∈ List.range CHUNK_SIZE :=
    List.mem_range.mpr (by norm_num [CHUNK_SIZE])
  unfold coords
  exact mem_flatMap_of_mem
    (fun (y : Nat) => (List.range CHUNK_SIZE).flatMap fun (z : Nat) =>
      (List.range CHUNK_SIZE).map fun (x : Nat) =>
        ((x : Int), (y : Int), (z : Int)))
    h0
    (mem_flatMap_of_mem
      (fun (z : Nat) => (List.range CHUNK_SIZE).map
        fun (x : Nat) => ((x : Int), ((0 : Nat) : Int), (z : Int)))
      h0
      (List.mem_map_of_mem
        (fun (x : Nat) => ((x : Int), ((0 : Nat) : Int), ((0 : Nat) : Int)))
        h0))

/-- C5 counterexample: in the chunk at position (1,0,0) whose only non-air
block sits at local (0,0,0), not every emitted vertex has its x-component in
the half-open interval [16,17): the vertices on the +x side of the block
have x-component exactly 17. -/
theorem tcge_C5_counterexample :
    ¬ (∀ v ∈ Mesher.meshVertices chunkC5, (16 : Rat) ≤ v.x ∧ v.x < 17) := by
  intro hall
  have hmem := Mesher.mem_meshVertices_of_block chunkC5 (0, 0, 0)
    origin_mem_coords _
    (List.mem_map_of_mem (Mesher.translateV chunkC5.pos 0 0 0)
      chunkC5_top_vertex_mem)
  have hv := (hall _ hmem).2
  simp only [Mesher.translateV, Mesher.faceQuad, List.getD_cons_succ,
    List.getD_cons_zero, chunkC5] at hv
  norm_num [CHUNK_SIZE] at hv

/-- C5 witness: a concrete emitted vertex of the block at local (0,0,0) of
the chunk at position (1,0,0) has its x-component inside [16,17]. -/
theorem tcge_C5_witness :
    (16 : Rat) ≤ (Mesher.translateV chunkC5.pos 0 0 0
      ((Mesher.faceQuad (Mesher.blockUvOf ((chunkC5.get_block 0 0 0).getD air))
        Mesher.Dir.top).getD 1 default)).x ∧
    (Mesher.translateV chunkC5.pos 0 0 0
      ((Mesher.faceQuad (Mesher.blockUvOf ((chunkC5.get_block 0 0 0).getD air))
        Mesher.Dir.top).getD 1 default)).x ≤ 17 := by
  have h := (tcge_C5 chunkC5 [] 0 0 0).2.2 rfl rfl
  exact h _ (List.mem_map_of_mem (Mesher.translateV chunkC5.pos 0 0 0)
    chunkC5_top_vertex_mem)

/-- C7 witness: concrete one-vertex uploads — the non-indexed variant
reports count 1, the indexed variant reports 1 / 4 * 6 = 0. -/
theorem tcge_C7_witness :
    (∃ m, (Mesher.upload ⟨(0, 0, 0), fun _ _ _ => air⟩ [default]).state =
      Mesher.ChunkMeshState.Meshed m ∧ m.count = 1) ∧
    (∃ m, (ChunkMesher.upload ⟨(0, 0, 0), fun _ _ _ => air⟩ [default]).state =
      ChunkMesher.ChunkMeshState.Meshed m ∧ m.count = 0) := by
  have h := tcge_C7 ⟨(0, 0, 0), fun _ _ _ => air⟩ ⟨(0, 0, 0), fun _ _ _ => air⟩
    [default] [default] (by decide) (by decide)
  exact h

theorem chunkWithEdge_pos_x_edge (A : Chunk)
    (nb : Int × Int × Int → Option Chunk) (y z : Int)
    (hy0 : 0 ≤ y) (hy1 : y < 16) (hz0 : 0 ≤ z) (hz1 : z < 16) :
    ChunkMesher.get_block (ChunkMesher.chunkWithEdge A nb) 16 y z =
      (match nb (1, 0, 0) with
        | some ch => ch.blocks 0 y z
        | none => air) := by
  show (ChunkMesher.chunkWithEdge A nb).data (y + 1) (z + 1) (16 + 1) =
    (match nb (1, 0, 0) with
      | some ch => ch.blocks 0 y z
      | none => air)
  simp only [ChunkMesher.chunkWithEdge, CHUNK_SIZE]
  norm_num
  split_ifs <;> try omega
  cases hnb : nb (1, 0, 0) with
  | none => rfl
  | some ch =>
    show ch.blocks 0 (y - 0) (z - 0) = ch.blocks 0 y z
    norm_num

/-- C2: for a non-air block at the +x edge of the meshed chunk, a solid
(non-air) block at local (0,y,z) of the provided +x neighbor chunk makes the
occlusion context cull the +x face (the bakery yields no +x quad for that
block); with no +x neighbor chunk in the neighborhood, the edge resolves to
air and the +x quad is emitted again. -/
theorem tcge_C2 (A B : Chunk) (nb : Int × Int × Int → Option Chunk)
    (y z : Int) (hy0 : 0 ≤ y) (hy1 : y < 16) (hz0 : 0 ≤ z) (hz1 : z < 16)
    (hA : A.blocks 15 y z ≠ air)
    (hB : B.blocks 0 y z ≠ air) (hnb : nb (1, 0, 0) = some B) :
    ChunkMesher.bakedFacePosX ∉
      ChunkMesher.blockQuadsAt ChunkMesher.render_block_spec
        (ChunkMesher.chunkWithEdge A nb) 15 y z ∧
    (∀ nb2 : Int × Int × Int → Option Chunk, nb2 (1, 0, 0) = none →
      ChunkMesher.bakedFacePosX ∈
        ChunkMesher.blockQuadsAt ChunkMesher.render_block_spec
          (ChunkMesher.chunkWithEdge A nb2) 15 y z) := by
  constructor
  · have hedge : ChunkMesher.get_block (ChunkMesher.chunkWithEdge A nb)
        (15 + 1) y z = B.blocks 0 y z := by
      rw [show (15 + 1 : Int) = 16 from rfl,
        chunkWithEdge_pos_x_edge A nb y z hy0 hy1 hz0 hz1, hnb]
    have hocc : (ChunkMesher.occlusionAt (ChunkMesher.chunkWithEdge A nb)
        15 y z).occlude_pos_x = true := by
      simp only [ChunkMesher.occlusionAt, ChunkMesher.BakeryContext.set_occlusion,
        hedge]
      simp [bne_iff_ne, hB]
    intro hmem
    simp only [ChunkMesher.blockQuadsAt, ChunkMesher.render_block_spec,
      if_pos hocc, List.nil_append, List.mem_append] at hmem
    rcases hmem with (((hm | hm) | hm) | hm) | hm <;>
      exact absurd (mem_of_mem_nil_ite hm) (by decide)
  · intro nb2 hnb2
    have hedge2 : ChunkMesher.get_block (ChunkMesher.chunkWithEdge A nb2)
        (15 + 1) y z = air := by
      rw [show (15 + 1 : Int) = 16 from rfl,
        chunkWithEdge_pos_x_edge A nb2 y z hy0 hy1 hz0 hz1, hnb2]
    have hocc2 : (ChunkMesher.occlusionAt (ChunkMesher.chunkWithEdge A nb2)
        15 y z).occlude_pos_x = false := by
      simp only [ChunkMesher.occlusionAt, ChunkMesher.BakeryContext.set_occlusion,
        hedge2]
      simp
    simp only [ChunkMesher.blockQuadsAt, ChunkMesher.render_block_spec, hocc2,
      Bool.false_eq_true, if_false, List.mem_append]
    left; left; left; left; left
    exact List.mem_singleton.mpr rfl

/-- Concrete chunk A for the C2 witness: every block solid. -/
def chunkA2 : Chunk := ⟨(0, 0, 0), fun _ _ _ => 1⟩

/-- Concrete +x neighbor chunk B for the C2 witness: every block solid. -/
def chunkB2 : Chunk := ⟨(1, 0, 0), fun _ _ _ => 1⟩

/-- Concrete neighborhood for the C2 witness: only the +x neighbor present. -/
def nbB2 : Int × Int × Int → Option Chunk :=
  fun o => if o = (1, 0, 0) then some chunkB2 else none

/-- C2 witness: with the solid +x neighbor provided the +x face of the edge
block (15,0,0) is culled; with an empty neighborhood it is emitted. -/
theorem tcge_C2_witness :
    ChunkMesher.bakedFacePosX ∉
      ChunkMesher.blockQuadsAt ChunkMesher.render_block_spec
        (ChunkMesher.chunkWithEdge chunkA2 nbB2) 15 0 0 ∧
    ChunkMesher.bakedFacePosX ∈
      ChunkMesher.blockQuadsAt ChunkMesher.render_block_spec
        (ChunkMesher.chunkWithEdge chunkA2 (fun _ => none)) 15 0 0 := by
  have h := tcge_C2 chunkA2 chunkB2 nbB2 0 0 (by norm_num) (by norm_num)
    (by norm_num) (by norm_num) (by decide) (by decide) (by simp [nbB2])
  exact ⟨h.1, h.2 (fun _ => none) rfl⟩
